import Mathlib

/-!
Shallow embedding of the pdf2md layout-reconstruction pipeline
(`src/pdf2md/converter.py`) and proofs about the specified properties.

Numeric page coordinates and font sizes are modelled as rationals; Python
strings are modelled as Lean `String` (a wrapper around `List Char`), with
the Python string primitives re-implemented explicitly over the character
lists so that their semantics are fully visible.
-/

set_option allowUnsafeReducibility true
attribute [semireducible] Rat.add Rat.sub Rat.mul Rat.inv Rat.ofScientific

/-- The whitespace characters recognised by Python's `str.strip` / `\s`
(ASCII fragment, which is all the pipeline relies on). -/
def isPySpace (c : Char) : Bool :=
  c = ' ' || c = '\t' || c = '\n' || c = '\r' || c = '\x0b' || c = '\x0c'

/-- `str.strip()` on the character list: drop whitespace from both ends. -/
def stripL (l : List Char) : List Char :=
  ((l.dropWhile isPySpace).reverse.dropWhile isPySpace).reverse

/-- Python `s.strip()`. -/
def pyStrip (s : String) : String :=
  String.mk (stripL s.data)

/-- Python `s.startswith(p)`. -/
def pyStartsWith (s p : String) : Bool :=
  p.data.isPrefixOf s.data

/-- Python `s.endswith(p)`. -/
def pyEndsWith (s p : String) : Bool :=
  p.data.isSuffixOf s.data

/-- An axis-aligned bounding box `(x0, y0, x1, y1)` in page coordinates. -/
structure BBox where
  x0 : ℚ
  y0 : ℚ
  x1 : ℚ
  y1 : ℚ
deriving DecidableEq, Repr

/-- The numeric fields of `ConversionOptions` used by the embedded core
(defaults as in the source). -/
structure ConversionOptions where
  heading_font_size_threshold : ℚ := 14
  min_heading_size_ratio : ℚ := 6/5
  line_merge_threshold : ℚ := 5
deriving DecidableEq, Repr

/-- `ConversionOptions()` with all defaults. -/
def defaultOptions : ConversionOptions := {}

/-- `TextBlock`: one extracted line (or merged block) of text with
formatting metadata. -/
structure TextBlock where
  text : String
  font_size : ℚ
  font_name : String
  is_bold : Bool
  is_italic : Bool
  bbox : BBox
  page_num : Nat
  is_monospace : Bool := false
  indent_level : Nat := 0
deriving DecidableEq, Repr

/-- `PDFConverter._bboxes_overlap`: axis-aligned rectangle intersection,
touching edges included. -/
def bboxes_overlap (b1 b2 : BBox) : Bool :=
  !(decide (b1.x1 < b2.x0) || decide (b2.x1 < b1.x0) ||
    decide (b1.y1 < b2.y0) || decide (b2.y1 < b1.y0))

/-- `PDFConverter._detect_heading_level`: bucket a font size into a heading
level 1-4 using the page base size, or `none` for body text. -/
def detect_heading_level (opts : ConversionOptions) (font_size base_font_size : ℚ) :
    Option Nat :=
  if font_size < opts.heading_font_size_threshold then none
  else
    let ratio := if base_font_size > 0 then font_size / base_font_size else 1
    if ratio < opts.min_heading_size_ratio then none
    else if ratio ≥ 2 then some 1
    else if ratio ≥ 17/10 then some 2
    else if ratio ≥ 7/5 then some 3
    else if ratio ≥ 6/5 then some 4
    else none

/-- One step of the gap-based clustering in
`PDFConverter._calculate_indent_thresholds`: start a new cluster when the
next position is more than 25 units beyond the running average of the
current cluster. -/
def clusterStep (st : List ℚ × List ℚ) (pos : ℚ) : List ℚ × List ℚ :=
  let cluster_avg := st.2.sum / (st.2.length : ℚ)
  if pos - cluster_avg > 25 then (st.1 ++ [cluster_avg], [pos])
  else (st.1, st.2 ++ [pos])

/-- The cluster means of a (sorted, deduplicated) position list, as computed
by the loop in `_calculate_indent_thresholds`. -/
def clustersOf : List ℚ → List ℚ
  | [] => []
  | p0 :: rest =>
    let st := rest.foldl clusterStep ([], [p0])
    if st.2 ≠ [] then st.1 ++ [st.2.sum / (st.2.length : ℚ)] else st.1

/-- `PDFConverter._calculate_indent_thresholds`: deduplicate and sort the
x-origins, cluster them by the 25-unit gap rule and return the sorted
cluster means. `sorted(set(xs))` is modelled as sorting the `Finset` of
elements; the final `sorted(...)` is modelled by a stable sort. -/
def calculate_indent_thresholds (x_positions : List ℚ) : List ℚ :=
  if x_positions = [] then []
  else
    let sorted_positions := x_positions.toFinset.sort (· ≤ ·)
    if sorted_positions.length ≤ 1 then sorted_positions
    else List.insertionSort (· ≤ ·) (clustersOf sorted_positions)

/-- `PDFConverter._get_indent_level`: index of the threshold nearest to the
given x-origin (first nearest wins); level 0 when there are no thresholds.
The running minimum starts at infinity, modelled by an `Option`. -/
def get_indent_level (x_pos : ℚ) (thresholds : List ℚ) : Nat :=
  if thresholds = [] then 0
  else
    let step := fun (st : Option ℚ × Nat) (it : Nat × ℚ) =>
      let dist := |x_pos - it.2|
      match st.1 with
      | none => (some dist, it.1)
      | some m => if dist < m then (some dist, it.1) else st
    (thresholds.enum.foldl step (none, 0)).2

/-- The data carried by one successfully decoded embedded image: its raw
bytes and its format extension. The PDF parsing library that produces these
is the external collaborator; a failed decode is `none` and is skipped. -/
structure ImgData where
  bytes : List Nat
  ext : String
deriving DecidableEq, Repr

/-- The image filename format of `PDFConverter._extract_images`:
`<name>_p<page+1>_img<counter>_<hash8>.<ext>`. -/
def imageFilename (source : String) (pageNum counter : Nat) (hash8 ext : String) :
    String :=
  source ++ "_p" ++ toString (pageNum + 1) ++ "_img" ++ toString counter ++
    "_" ++ hash8 ++ "." ++ ext

/-- `PDFConverter._extract_images`, restricted to the filename-assigning
state machine: walk the page's images, skip failed decodes, and for each
success increment the counter and assign
`<name>_p<page+1>_img<counter>_<first 8 hex chars of content hash>.<ext>`.
`hexdigest` is the external content-hash function, passed as a parameter.
Returns the assigned filenames and the final counter. -/
def extract_images (hexdigest : List Nat → String) (source : String) (pageNum : Nat) :
    List (Option ImgData) → Nat → List String × Nat
  | [], c => ([], c)
  | none :: rest, c => extract_images hexdigest source pageNum rest c
  | some d :: rest, c =>
    let c' := c + 1
    let fn := imageFilename source pageNum c' ((hexdigest d.bytes).take 8) d.ext
    let r := extract_images hexdigest source pageNum rest c'
    (fn :: r.1, r.2)

/-- The per-page loop of `convert_bytes`, restricted to image extraction:
pages are processed in order with 0-based page indices, threading the
image counter. -/
def convertPagesImages (hexdigest : List Nat → String) (source : String) :
    List (List (Option ImgData)) → Nat → Nat → List String × Nat
  | [], _, c => ([], c)
  | pg :: rest, pn, c =>
    let r := extract_images hexdigest source pn pg c
    let r2 := convertPagesImages hexdigest source rest (pn + 1) r.2
    (r.1 ++ r2.1, r2.2)

/-- `PDFConverter.convert_bytes`, restricted to image-filename assignment:
the instance's image counter (`counter` = its value before the call) is
reset to 0 at the start of every conversion, then the pages are processed
in order. -/
def convert_bytes_image_filenames (hexdigest : List Nat → String) (source : String)
    (pages : List (List (Option ImgData))) (_counter : Nat) : List String × Nat :=
  convertPagesImages hexdigest source pages 0 0

/-- The standalone bullet glyphs of `BULLET_PATTERN = ^[•●○◦▪▸►\-–—]$`. -/
def bulletGlyphs : List Char := ['•', '●', '○', '◦', '▪', '▸', '►', '-', '–', '—']

/-- `BULLET_PATTERN` applied to (already stripped) text: the text is exactly
one bullet glyph. -/
def isBulletMarker (s : String) : Bool :=
  match s.data with
  | [c] => bulletGlyphs.contains c
  | _ => false

/-- Python `int(...)` on a digit string. -/
def digitsToNat (ds : List Char) : Nat :=
  ds.foldl (fun a c => a * 10 + (c.toNat - '0'.toNat)) 0

/-- `NUMBER_PATTERN = ^(\d+)[.):]\s*$` applied to (already stripped) text:
returns the digit group when the whole text is digits, one of `.`/`)`/`:`,
then only whitespace. -/
def numberMarker (s : String) : Option String :=
  let ds := s.data.takeWhile Char.isDigit
  if ds.isEmpty then none
  else
    match s.data.drop ds.length with
    | p :: rest =>
      if (p = '.' || p = ')' || p = ':') && rest.all isPySpace then some (String.mk ds)
      else none
    | [] => none

/-- `^[•●○◦▪▸►\-–—]\s+`: the text begins a new bulleted list item. -/
def startsNewBulletItem (s : String) : Bool :=
  match s.data with
  | c :: d :: _ => bulletGlyphs.contains c && isPySpace d
  | _ => false

/-- `^\d+[.)]\s+`: the text begins a new numbered list item. -/
def startsNewNumberItem (s : String) : Bool :=
  let ds := s.data.takeWhile Char.isDigit
  if ds.isEmpty then false
  else
    match s.data.drop ds.length with
    | p :: d :: _ => (p = '.' || p = ')') && isPySpace d
    | _ => false

/-- `PDFConverter._merge_bboxes`: union of two bounding boxes. -/
def merge_bboxes (b1 b2 : BBox) : BBox :=
  ⟨min b1.x0 b2.x0, min b1.y0 b2.y0, max b1.x1 b2.x1, max b1.y1 b2.y1⟩

/-- `PDFConverter._should_join_bullet`: a bullet marker joins its content
when they are on the same page and the vertical gap from the marker's
bottom to the content's top is at most the marker's line height plus 5. -/
def should_join_bullet (bullet content : TextBlock) : Bool :=
  if bullet.page_num ≠ content.page_num then false
  else
    let bullet_bottom := bullet.bbox.y1
    let content_top := content.bbox.y0
    let vertical_gap := content_top - bullet_bottom
    let line_height := bullet.bbox.y1 - bullet.bbox.y0
    if vertical_gap > line_height + 5 then false
    else true

/-- `PDFConverter._should_join_number`: identical to the bullet join test. -/
def should_join_number (number content : TextBlock) : Bool :=
  should_join_bullet number content

/-- `PDFConverter._should_continue_list_item`: whether `candidate` extends
an already-started list item whose first content block is
`first_content`. -/
def should_continue_list_item (opts : ConversionOptions)
    (first_content candidate prev : TextBlock) : Bool :=
  if first_content.page_num ≠ candidate.page_num then false
  else
    let candidate_text := pyStrip candidate.text
    if pyStartsWith candidate_text "#" then false
    else if candidate_text = "→" || pyStartsWith candidate_text "→ " then true
    else if isBulletMarker candidate_text then false
    else if (numberMarker candidate_text).isSome then false
    else if startsNewBulletItem candidate_text then false
    else if startsNewNumberItem candidate_text then false
    else
      let prev_bottom := prev.bbox.y1
      let candidate_top := candidate.bbox.y0
      let line_height := prev.bbox.y1 - prev.bbox.y0
      let vertical_gap := candidate_top - prev_bottom
      if vertical_gap > line_height + opts.line_merge_threshold then false
      else
        let mx := max first_content.font_size candidate.font_size
        let size_ratio :=
          if mx > 0 then min first_content.font_size candidate.font_size / mx else 1
        if size_ratio < 1/2 then false
        else true

/-- `PDFConverter._should_merge_lines`: whether `second` continues the
paragraph started at `first`, with `prev` the block immediately before
`second`. -/
def should_merge_lines (opts : ConversionOptions) (first second prev : TextBlock) :
    Bool :=
  if first.page_num ≠ second.page_num then false
  else
    let first_text := pyStrip first.text
    let second_text := pyStrip second.text
    if pyStartsWith first_text "#" || pyStartsWith second_text "#" then false
    else if second_text = "→" || pyStartsWith second_text "→ " then true
    else if pyEndsWith first_text "→" then true
    else if isBulletMarker second_text then false
    else if (numberMarker second_text).isSome then false
    else if startsNewBulletItem second_text then false
    else if startsNewNumberItem second_text then false
    else
      let prev_bottom := prev.bbox.y1
      let second_top := second.bbox.y0
      let line_height := prev.bbox.y1 - prev.bbox.y0
      let vertical_gap := second_top - prev_bottom
      if vertical_gap > line_height + opts.line_merge_threshold then false
      else
        let mx := max first.font_size second.font_size
        let size_ratio := if mx > 0 then min first.font_size second.font_size / mx else 1
        if size_ratio < 4/5 then false
        else if |first.bbox.x0 - second.bbox.x0| > 50 then false
        else if first.is_bold ≠ second.is_bold ∧ first.is_bold ∧
            (pyStrip first.text).data.length < 100 then false
        else true

/-- The hyphenation-aware join step shared (inline) by the three merge
loops of the source: drop a trailing hyphen and concatenate directly,
otherwise join with a single space; the incoming fragment's text is
stripped either way. -/
def hyphenJoin (merged_text nextText : String) : String :=
  if merged_text.data.getLast? = some '-' then
    String.mk merged_text.data.dropLast ++ pyStrip nextText
  else merged_text ++ " " ++ pyStrip nextText

/-- The loop of `PDFConverter._merge_paragraph_lines` over the blocks after
`current`, carrying the block playing the role of `blocks[end_idx]` (the
last block merged so far). Also returns how many blocks were fused. -/
def mergeParaAux (opts : ConversionOptions) (current : TextBlock) :
    TextBlock → String → BBox → List TextBlock → String × BBox × Nat
  | _, text, bbox, [] => (text, bbox, 0)
  | prev, text, bbox, nb :: rest =>
    if should_merge_lines opts current nb prev then
      let r := mergeParaAux opts current nb (hyphenJoin text nb.text)
        (merge_bboxes bbox nb.bbox) rest
      (r.1, r.2.1, r.2.2 + 1)
    else (text, bbox, 0)

/-- `PDFConverter._merge_paragraph_lines` for the block `current` followed
by the blocks `rest`. -/
def merge_paragraph_lines (opts : ConversionOptions) (current : TextBlock)
    (rest : List TextBlock) : TextBlock :=
  let r := mergeParaAux opts current current (pyStrip current.text) current.bbox rest
  { text := r.1
    font_size := current.font_size
    font_name := current.font_name
    is_bold := current.is_bold
    is_italic := current.is_italic
    bbox := r.2.1
    page_num := current.page_num
    is_monospace := current.is_monospace
    indent_level := current.indent_level }

/-- The number of blocks `_merge_paragraph_lines` fuses after `current`. -/
def mergeParaFused (opts : ConversionOptions) (current : TextBlock)
    (rest : List TextBlock) : Nat :=
  (mergeParaAux opts current current (pyStrip current.text) current.bbox rest).2.2

/-- The loop of `PDFConverter._count_merged_blocks`, carrying `blocks[j-1]`
(the block immediately before the candidate). -/
def countMergedAux (opts : ConversionOptions) (current : TextBlock) :
    TextBlock → List TextBlock → Nat
  | _, [] => 0
  | prev, nb :: rest =>
    if should_merge_lines opts current nb prev then 1 + countMergedAux opts current nb rest
    else 0

/-- `PDFConverter._count_merged_blocks` for `current` followed by `rest`. -/
def count_merged_blocks (opts : ConversionOptions) (current : TextBlock)
    (rest : List TextBlock) : Nat :=
  1 + countMergedAux opts current current rest

/-- The continuation loop shared by the bullet and number branches of
`_merge_text_blocks`: keep fusing candidates that qualify as list-item
continuations, carrying `sorted_blocks[j-1]`. Returns the accumulated text,
bounding box and the number of continuation blocks consumed. -/
def listContLoop (opts : ConversionOptions) (first_content : TextBlock) :
    TextBlock → String → BBox → List TextBlock → String × BBox × Nat
  | _, text, bbox, [] => (text, bbox, 0)
  | prev, text, bbox, cand :: rest =>
    if should_continue_list_item opts first_content cand prev then
      let r := listContLoop opts first_content cand (hyphenJoin text cand.text)
        (merge_bboxes bbox cand.bbox) rest
      (r.1, r.2.1, r.2.2 + 1)
    else (text, bbox, 0)

/-- The sort key of `_merge_text_blocks`: `(bbox[1], bbox[0])`, i.e. top-y
then left-x. -/
def blockLE (a b : TextBlock) : Prop :=
  a.bbox.y0 < b.bbox.y0 ∨ (a.bbox.y0 = b.bbox.y0 ∧ a.bbox.x0 ≤ b.bbox.x0)

instance instDecidableBlockLE : DecidableRel blockLE := fun a b => by
  unfold blockLE
  exact inferInstance

/-- Python's stable `sorted` on the `(y0, x0)` key, modelled by a stable
sort. -/
def sortBlocks (blocks : List TextBlock) : List TextBlock :=
  List.insertionSort blockLE blocks

/-- The main loop of `PDFConverter._merge_text_blocks` over the sorted
blocks: standalone bullet markers and standalone number markers fuse with
their content (or are discarded), everything else goes through paragraph
merging, and the cursor advances past every consumed block. The `while`
loop consumes at least one block per iteration, so it is embedded with a
fuel parameter; any fuel of at least the list's length (which
`merge_text_blocks` supplies) realises the loop's semantics. -/
def mergeLoop (opts : ConversionOptions) : Nat → List TextBlock → List TextBlock
  | 0, _ => []
  | _ + 1, [] => []
  | fuel + 1, current :: rest =>
    let current_text := pyStrip current.text
    if isBulletMarker current_text then
      match rest with
      | next :: rest2 =>
        if should_join_bullet current next then
          let r := listContLoop opts next next ("- " ++ pyStrip next.text)
            (merge_bboxes current.bbox next.bbox) rest2
          { text := r.1
            font_size := next.font_size
            font_name := next.font_name
            is_bold := next.is_bold
            is_italic := next.is_italic
            bbox := r.2.1
            page_num := current.page_num
            is_monospace := next.is_monospace
            indent_level := current.indent_level } :: mergeLoop opts fuel (rest2.drop r.2.2)
        else mergeLoop opts fuel rest
      | [] => mergeLoop opts fuel rest
    else
      match numberMarker current_text with
      | some num =>
        match rest with
        | next :: rest2 =>
          if should_join_number current next then
            let r := listContLoop opts next next (num ++ ". " ++ pyStrip next.text)
              (merge_bboxes current.bbox next.bbox) rest2
            { text := r.1
              font_size := next.font_size
              font_name := next.font_name
              is_bold := next.is_bold
              is_italic := next.is_italic
              bbox := r.2.1
              page_num := current.page_num
              is_monospace := next.is_monospace
              indent_level := current.indent_level } :: mergeLoop opts fuel (rest2.drop r.2.2)
          else mergeLoop opts fuel rest
        | [] => mergeLoop opts fuel rest
      | none =>
        let mb := merge_paragraph_lines opts current rest
        let k := count_merged_blocks opts current rest
        mb :: mergeLoop opts fuel (rest.drop (k - 1))

/-- `PDFConverter._merge_text_blocks`: sort by `(y0, x0)` and run the
merging loop. -/
def merge_text_blocks (opts : ConversionOptions) (blocks : List TextBlock) :
    List TextBlock :=
  if blocks = [] then []
  else mergeLoop opts (sortBlocks blocks).length (sortBlocks blocks)

/-- `re.match(r"^(\d+)\.\s+", line)` as used by
`_fix_orphaned_numbered_items`: leading digits, a literal dot, then at
least one whitespace character; returns the parsed number. -/
def numberedItemPrefix (s : String) : Option Nat :=
  let ds := s.data.takeWhile Char.isDigit
  if ds.isEmpty then none
  else
    match s.data.drop ds.length with
    | '.' :: c :: _ => if isPySpace c then some (digitsToNat ds) else none
    | _ => none

/-- The lookahead of `_fix_orphaned_numbered_items`: the loop breaks at the
first line (stripped) matching the numbered-item pattern, yielding its
number. -/
def firstFutureNumber : List String → Option Nat
  | [] => none
  | l :: rest =>
    match numberedItemPrefix (pyStrip l) with
    | some n => some n
    | none => firstFutureNumber rest

/-- The line loop of `PDFConverter._fix_orphaned_numbered_items`, carrying
`last_number` (0 = no numbering context). A numbered line resets the
context; a line whose stripped text starts and ends with `**` while the
context is active looks ahead through the next 14 lines
(`range(i+1, min(i+15, len(lines)))`) for the first numbered line, and is
renumbered as `<last+1>. **content**` only when that future number
exceeds `last+1`. -/
def fixOrphanLoop : List String → Nat → List String
  | [], _ => []
  | line :: rest, lastNum =>
    let stripped := pyStrip line
    match numberedItemPrefix stripped with
    | some n => line :: fixOrphanLoop rest n
    | none =>
      if pyStartsWith stripped "**" = true ∧ pyEndsWith stripped "**" = true ∧
          0 < lastNum then
        match firstFutureNumber (rest.take 14) with
        | some fn =>
          if fn > lastNum + 1 then
            (toString (lastNum + 1) ++ ". **" ++
              String.mk ((stripped.data.drop 2).dropLast.dropLast) ++ "**") ::
              fixOrphanLoop rest (lastNum + 1)
          else line :: fixOrphanLoop rest lastNum
        | none => line :: fixOrphanLoop rest lastNum
      else line :: fixOrphanLoop rest lastNum

/-- Python `markdown.split("\n")` (keeps empty pieces), with the current
line accumulated in reverse. -/
def splitLinesAux : List Char → List Char → List String
  | [], acc => [String.mk acc.reverse]
  | '\n' :: rest, acc => String.mk acc.reverse :: splitLinesAux rest []
  | c :: rest, acc => splitLinesAux rest (c :: acc)

/-- Python `markdown.split("\n")`. -/
def pySplitLines (s : String) : List String :=
  splitLinesAux s.data []

/-- `PDFConverter._fix_orphaned_numbered_items`: split into lines, run the
repair loop with no numbering context, and rejoin. -/
def fix_orphaned_numbered_items (markdown : String) : String :=
  String.intercalate "\n" (fixOrphanLoop (pySplitLines markdown) 0)

/-- Index of the last newline inside a whitespace run: the position the
greedy `\s*$` backtracks to when the run is not at the end of the input. -/
def lastNewlineIdx (l : List Char) : Option Nat :=
  match l.reverse.findIdx? (fun c => c = '\n') with
  | some k => some (l.length - 1 - k)
  | none => none

/-- Matching `\s*,\s*\.\s*$` (with `re.MULTILINE`) at the head of the
input: greedy whitespace runs around a comma and a period, then `$` —
either the end of the input, or just before a newline inside the final
whitespace run (greedy, so the last such newline). Returns the number of
characters the match consumes. -/
def matchCommaPeriodEol (l : List Char) : Option Nat :=
  let w1 := l.takeWhile isPySpace
  match l.drop w1.length with
  | ',' :: r2 =>
    let w2 := r2.takeWhile isPySpace
    match r2.drop w2.length with
    | '.' :: r4 =>
      let w3 := r4.takeWhile isPySpace
      let r5 := r4.drop w3.length
      if r5.isEmpty then some (w1.length + 1 + w2.length + 1 + w3.length)
      else
        match lastNewlineIdx w3 with
        | some j => some (w1.length + 1 + w2.length + 1 + j)
        | none => none
    | _ => none
  | _ => none

/-- Matching `\s*,\s*,\s*,\s*\.` at the head of the input: exactly three
commas separated by whitespace runs, then a period. Returns the number of
characters consumed. -/
def matchTripleCommaPeriod (l : List Char) : Option Nat :=
  let w1 := l.takeWhile isPySpace
  match l.drop w1.length with
  | ',' :: r1 =>
    let w2 := r1.takeWhile isPySpace
    match r1.drop w2.length with
    | ',' :: r2 =>
      let w3 := r2.takeWhile isPySpace
      match r2.drop w3.length with
      | ',' :: r3 =>
        let w4 := r3.takeWhile isPySpace
        match r3.drop w4.length with
        | '.' :: _ =>
          some (w1.length + 1 + w2.length + 1 + w3.length + 1 + w4.length + 1)
        | _ => none
      | _ => none
    | _ => none
  | _ => none

/-- `re.sub` for a fixed-replacement pattern: scan left to right, replace
each leftmost non-overlapping match and continue after it. Every match of
the two patterns above consumes at least one character, so fuel equal to
the input length realises the scan. -/
def scanSub (m : List Char → Option Nat) (repl : List Char) :
    Nat → List Char → List Char
  | 0, l => l
  | _ + 1, [] => []
  | fuel + 1, c :: rest =>
    match m (c :: rest) with
    | some n =>
      if n = 0 then c :: scanSub m repl fuel rest
      else repl ++ scanSub m repl fuel ((c :: rest).drop n)
    | none => c :: scanSub m repl fuel rest

/-- `re.sub(r"\s*,\s*\.\s*$", ".", markdown, flags=re.MULTILINE)`. -/
def sub_comma_period_eol (s : String) : String :=
  String.mk (scanSub matchCommaPeriodEol ['.'] s.data.length s.data)

/-- `re.sub(r"\s*,\s*,\s*,\s*\.", ".", markdown, flags=re.MULTILINE)`. -/
def sub_triple_comma_period (s : String) : String :=
  String.mk (scanSub matchTripleCommaPeriod ['.'] s.data.length s.data)

/-- The orphaned-punctuation pass of `PDFConverter._post_process_document`:
the two substitutions, in source order. -/
def punctuationCleanup (s : String) : String :=
  sub_triple_comma_period (sub_comma_period_eol s)

/-- `PDFConverter._post_process_document`: punctuation cleanup, then the
orphaned-numbering repair. -/
def post_process_document (s : String) : String :=
  fix_orphaned_numbered_items (punctuationCleanup s)

/-- Python `cell.replace("|", "\\|")` for the single character `|`. -/
def replacePipes : List Char → List Char
  | [] => []
  | '|' :: rest => '\\' :: '|' :: replacePipes rest
  | c :: rest => c :: replacePipes rest

/-- Python `str.split()` (split on whitespace runs, dropping empties), with
fuel for structural recursion; fuel equal to the input length realises the
split. -/
def pyWordsF : Nat → List Char → List (List Char)
  | 0, _ => []
  | _ + 1, [] => []
  | fuel + 1, c :: rest =>
    if isPySpace c then pyWordsF fuel rest
    else (c :: rest.takeWhile (fun d => !isPySpace d)) ::
      pyWordsF fuel (rest.dropWhile (fun d => !isPySpace d))

/-- Python `str.split()` on a character list. -/
def pyWords (l : List Char) : List (List Char) :=
  pyWordsF l.length l

/-- Modelled from the spec: `_escape_table_cell` is absent from the
repository's source files (only its tests remain), so per §4.4 every cell
is whitespace-normalized — internal whitespace and newlines collapsed to
single spaces via `" ".join(cell.split())` — and pipe characters are
escaped as `\|`. -/
def escape_table_cell (cell : String) : String :=
  let normalized := String.intercalate " " ((pyWords cell.data).map String.mk)
  String.mk (replacePipes normalized.data)

/-- Modelled from the spec: `TableInfo`, the 2-D grid of cell strings with
bounding box, page index and row/column counts; the dataclass is imported
by `pdf2md/__init__.py` and exercised by the tests but its definition is
not among the repository's source files. -/
structure TableInfo where
  data : List (List String)
  bbox : BBox
  page_num : Nat
  row_count : Nat := 0
  col_count : Nat := 0
deriving DecidableEq, Repr

/-- Modelled from the spec: one rendered pipe-delimited row — the row is
right-padded with empty cells to the column count, every cell is escaped,
and the cells are joined between pipes. -/
def render_table_row (ncols : Nat) (row : List String) : String :=
  let padded := row ++ List.replicate (ncols - row.length) ""
  "| " ++ String.intercalate " | " (padded.map escape_table_cell) ++ " |"

/-- Modelled from the spec: `_table_to_markdown` is absent from the
repository's source files (only its tests remain), so per §4.4 a table
renders as the header row, a separator row of `---` repeated once per
column, then the data rows; an empty table (no rows) renders as the empty
string. The column count is the header row's length, as the tests
exercise. -/
def table_to_markdown (t : TableInfo) : String :=
  match t.data with
  | [] => ""
  | header :: rows =>
    let ncols := header.length
    let sep := "| " ++ String.intercalate " | " (List.replicate ncols "---") ++ " |"
    String.intercalate "\n"
      (render_table_row ncols header :: sep :: rows.map (render_table_row ncols))

/-- A one-line fragment with the pipeline's default metadata at vertical
offset `y0` and horizontal offset `x0`, used in the concrete conversion
scenarios below. -/
def lineFragment (t : String) (x0 y0 : ℚ) : TextBlock :=
  { text := t
    font_size := 12
    font_name := "Helvetica"
    is_bold := false
    is_italic := false
    bbox := ⟨x0, y0, x0 + 10, y0 + 10⟩
    page_num := 0 }

/-- Claim C7: the overlap test is exactly the negated separation condition,
it counts touching edges as overlapping (e.g. `(0,0,50,50)` vs
`(50,0,100,50)`), and it is symmetric in its two arguments. -/
theorem c7_bbox_overlap_characterisation :
    (∀ b1 b2 : BBox,
      (bboxes_overlap b1 b2 = true ↔
        ¬(b1.x1 < b2.x0 ∨ b2.x1 < b1.x0 ∨ b1.y1 < b2.y0 ∨ b2.y1 < b1.y0))) ∧
    bboxes_overlap ⟨0, 0, 50, 50⟩ ⟨50, 0, 100, 50⟩ = true ∧
    (∀ b1 b2 : BBox, bboxes_overlap b1 b2 = bboxes_overlap b2 b1) := by
  refine ⟨?_, by decide, ?_⟩
  · intro b1 b2
    simp only [bboxes_overlap, not_or, Bool.not_eq_true', Bool.or_eq_false_iff,
      decide_eq_false_iff_not, not_lt]
    tauto
  · intro b1 b2
    unfold bboxes_overlap
    by_cases h1 : b1.x1 < b2.x0 <;> by_cases h2 : b2.x1 < b1.x0 <;>
      by_cases h3 : b1.y1 < b2.y0 <;> by_cases h4 : b2.y1 < b1.y0 <;>
      simp [h1, h2, h3, h4]

/-- Claim C2: with default options and a positive base size, a block is a
heading only when its size clears the absolute floor (14) and the size ratio
clears the minimum (1.2); the four heading levels correspond exactly to the
ratio buckets, and any size below the floor is never a heading. -/
theorem c2_heading_level_buckets (s b : ℚ) (hb : 0 < b) :
    ((detect_heading_level defaultOptions s b).isSome →
        14 ≤ s ∧ 6/5 ≤ s / b) ∧
    (detect_heading_level defaultOptions s b = some 1 ↔ 14 ≤ s ∧ 2 ≤ s / b) ∧
    (detect_heading_level defaultOptions s b = some 2 ↔
        14 ≤ s ∧ 17/10 ≤ s / b ∧ s / b < 2) ∧
    (detect_heading_level defaultOptions s b = some 3 ↔
        14 ≤ s ∧ 7/5 ≤ s / b ∧ s / b < 17/10) ∧
    (detect_heading_level defaultOptions s b = some 4 ↔
        14 ≤ s ∧ 6/5 ≤ s / b ∧ s / b < 7/5) ∧
    (s < 14 → detect_heading_level defaultOptions s b = none) := by
  have hb' : (b > 0) = True := by simp [hb]
  unfold detect_heading_level defaultOptions
  simp only [hb', if_true, gt_iff_lt, hb]
  refine ⟨?_, ?_, ?_, ?_, ?_, ?_⟩
  · intro h
    split_ifs at h with h1 h2 <;> simp_all <;>
      first
        | linarith
        | (constructor <;> linarith)
        | (intros; linarith)
  · split_ifs with h1 h2 h3 h4 h5 h6 <;> simp_all <;>
      first
        | linarith
        | (constructor <;> linarith)
        | (intros; linarith)
        | (intros; constructor <;> linarith)
  · split_ifs with h1 h2 h3 h4 h5 h6 <;> simp_all <;>
      first
        | linarith
        | (constructor <;> linarith)
        | (intros; linarith)
        | (intros; constructor <;> linarith)
  · split_ifs with h1 h2 h3 h4 h5 h6 <;> simp_all <;>
      first
        | linarith
        | (constructor <;> linarith)
        | (intros; linarith)
        | (intros; constructor <;> linarith)
  · split_ifs with h1 h2 h3 h4 h5 h6 <;> simp_all <;>
      first
        | linarith
        | (constructor <;> linarith)
        | (intros; linarith)
        | (intros; constructor <;> linarith)
  · intro h
    split_ifs with h1 <;> simp_all <;> linarith

/-- Witness for C2 at the spec's boundary examples: size 24 over base 12. -/
theorem c2_heading_level_buckets_witness :
    (0 : ℚ) < 12 ∧ (detect_heading_level defaultOptions 24 12 = some 1 ↔
      14 ≤ (24 : ℚ) ∧ 2 ≤ (24 : ℚ) / 12) :=
  ⟨by norm_num, (c2_heading_level_buckets 24 12 (by norm_num)).2.1⟩

/-- Claim C6: indentation-threshold detection is deterministic and
order-independent — any two x-origin lists with the same set of positions
(permutations, added duplicates, or re-runs) yield the identical threshold
list; the threshold list is ascending; the empty input yields no
thresholds; and with no thresholds every x-origin gets level 0. -/
theorem c6_indent_thresholds_order_independent :
    (∀ xs ys : List ℚ, xs.toFinset = ys.toFinset →
      calculate_indent_thresholds xs = calculate_indent_thresholds ys) ∧
    (∀ xs : List ℚ, List.Sorted (· ≤ ·) (calculate_indent_thresholds xs)) ∧
    calculate_indent_thresholds [] = [] ∧
    (∀ x : ℚ, get_indent_level x [] = 0) := by
  refine ⟨?_, ?_, by decide, by intro x; rfl⟩
  · intro xs ys h
    unfold calculate_indent_thresholds
    by_cases hxs : xs = []
    · have hys : ys = [] := by
        rw [← List.toFinset_eq_empty_iff, ← h, hxs, List.toFinset_nil]
      simp [hxs, hys]
    · have hys : ys ≠ [] := by
        intro hy
        apply hxs
        rw [← List.toFinset_eq_empty_iff, h, hy, List.toFinset_nil]
      simp only [if_neg hxs, if_neg hys, h]
  · intro xs
    unfold calculate_indent_thresholds
    by_cases hxs : xs = []
    · simp [hxs]
    · simp only [if_neg hxs]
      by_cases hlen : (xs.toFinset.sort (· ≤ ·)).length ≤ 1
      · simp only [if_pos hlen]
        exact Finset.sort_sorted _ _
      · simp only [if_neg hlen]
        exact List.sorted_insertionSort _ _

/-- Witness for C6: a permuted list with an extra duplicate yields the same
thresholds as the original. -/
theorem c6_indent_thresholds_order_independent_witness :
    ([30, 5, 30] : List ℚ).toFinset = ([5, 30] : List ℚ).toFinset ∧
    calculate_indent_thresholds [30, 5, 30] = calculate_indent_thresholds [5, 30] :=
  ⟨by decide, c6_indent_thresholds_order_independent.1 [30, 5, 30] [5, 30] (by decide)⟩

/-- The filenames assigned by `extract_images` on one page: the successful
images, in order, with consecutive counter values starting just above the
incoming counter. -/
theorem extract_images_filename_shape (hexdigest : List Nat → String) (src : String)
    (pn : Nat) (imgs : List (Option ImgData)) :
    ∀ c : Nat, (extract_images hexdigest src pn imgs c).1 =
      (imgs.filterMap id).mapIdx
        (fun k d => imageFilename src pn (c + k + 1) ((hexdigest d.bytes).take 8) d.ext) := by
  induction imgs with
  | nil => intro c; simp [extract_images]
  | cons hd rest ih =>
    intro c
    cases hd with
    | none => simpa [extract_images] using ih c
    | some d =>
      simp only [extract_images, List.filterMap_cons, id_eq, List.mapIdx_cons]
      rw [ih (c + 1)]
      have hf : (fun k (d' : ImgData) =>
            imageFilename src pn (c + 1 + k + 1) ((hexdigest d'.bytes).take 8) d'.ext) =
          (fun k (d' : ImgData) =>
            imageFilename src pn (c + (k + 1) + 1) ((hexdigest d'.bytes).take 8) d'.ext) := by
        funext k d'
        have harith : c + 1 + k + 1 = c + (k + 1) + 1 := by omega
        rw [harith]
      rw [hf]

/-- Claim C8: every assigned image filename has the form
`<name>_p<page+1>_img<seq>_<8-char content hash>.<ext>` with the sequence
taken from a counter that `convert_bytes` resets to 0, so converting the
same pages twice with the same instance (any prior counter values) yields
identical filenames. -/
theorem c8_image_filenames_deterministic :
    (∀ (hexdigest : List Nat → String) (src : String)
      (pages : List (List (Option ImgData))) (c c' : Nat),
      (convert_bytes_image_filenames hexdigest src pages c).1 =
      (convert_bytes_image_filenames hexdigest src pages c').1) ∧
    (∀ (hexdigest : List Nat → String) (src : String) (pn : Nat)
      (imgs : List (Option ImgData)) (c : Nat),
      (extract_images hexdigest src pn imgs c).1 =
        (imgs.filterMap id).mapIdx
          (fun k d => src ++ "_p" ++ toString (pn + 1) ++ "_img" ++
            toString (c + k + 1) ++ "_" ++ (hexdigest d.bytes).take 8 ++ "." ++ d.ext)) := by
  constructor
  · intro hexdigest src pages c c'
    rfl
  · intro hexdigest src pn imgs c
    exact extract_images_filename_shape hexdigest src pn imgs c

/-- Appending strings concatenates their character lists. -/
theorem strData_append (s t : String) : (s ++ t).data = s.data ++ t.data := by
  cases s
  cases t
  rfl

/-- Appending a `String.mk` on the right stays in `String.mk` form. -/
theorem strAppend_mk (s : String) (l : List Char) :
    s ++ String.mk l = String.mk (s.data ++ l) := by
  cases s
  rfl

/-- A string of at least two characters is never a standalone bullet
glyph. -/
theorem isBulletMarker_eq_false_of_two_le (s : String) (h : 2 ≤ s.data.length) :
    isBulletMarker s = false := by
  unfold isBulletMarker
  rcases hds : s.data with _ | ⟨c, _ | ⟨d, t⟩⟩
  · rfl
  · rw [hds] at h
    simp at h
  · rfl

/-- The head of `dropWhile p` never satisfies `p`. -/
theorem head?_dropWhile_not (p : Char → Bool) :
    ∀ (l : List Char) (c : Char), (l.dropWhile p).head? = some c → p c = false := by
  intro l
  induction l with
  | nil =>
    intro c h
    simp [List.dropWhile] at h
  | cons a t ih =>
    intro c h
    rw [List.dropWhile_cons] at h
    by_cases hp : p a
    · rw [if_pos hp] at h
      exact ih c h
    · rw [if_neg hp] at h
      simp only [List.head?_cons, Option.some.injEq] at h
      rw [← h]
      simpa using hp

/-- The last character of a stripped string is never whitespace. -/
theorem stripL_getLast_not_space (l : List Char) (c : Char)
    (h : (stripL l).getLast? = some c) : isPySpace c = false := by
  unfold stripL at h
  rw [List.getLast?_reverse] at h
  exact head?_dropWhile_not isPySpace _ c h

/-- A nonempty stripped list ends in some non-whitespace character. -/
theorem stripL_good (l : List Char) (h : stripL l ≠ []) :
    ∃ ch, (stripL l).getLast? = some ch ∧ isPySpace ch = false := by
  have hsome : (stripL l).getLast?.isSome := by
    rw [List.getLast?_isSome]
    exact h
  obtain ⟨ch, hch⟩ := Option.isSome_iff_exists.mp hsome
  exact ⟨ch, hch, stripL_getLast_not_space l ch hch⟩

/-- A list ending in a non-whitespace character strips to a nonempty
list. -/
theorem stripL_ne_nil_of_last (c : List Char) (ch : Char)
    (hlast : c.getLast? = some ch) (hch : isPySpace ch = false) : stripL c ≠ [] := by
  intro hnil
  unfold stripL at hnil
  rw [List.reverse_eq_nil_iff, List.dropWhile_eq_nil_iff] at hnil
  have hmem : ch ∈ c.dropWhile isPySpace := by
    by_cases hd : c.dropWhile isPySpace = []
    · rw [List.dropWhile_eq_nil_iff] at hd
      have := hd ch (List.mem_of_getLast?_eq_some hlast)
      rw [hch] at this
      exact absurd this (by simp)
    · have hlast2 : (c.takeWhile isPySpace ++ c.dropWhile isPySpace).getLast? = some ch := by
        rw [List.takeWhile_append_dropWhile]
        exact hlast
      rw [List.getLast?_append_of_ne_nil _ hd] at hlast2
      exact List.mem_of_getLast?_eq_some hlast2
  have := hnil ch (by simpa using hmem)
  rw [hch] at this
  exact absurd this (by simp)

/-- One hyphenation-aware join step on a marker-prefixed text keeps the
marker prefix, keeps the tail nonempty, and leaves a non-whitespace final
character. -/
theorem hyphenJoin_marker_step (m : String) (c : List Char) (s : String)
    (hc : c ≠ []) (hs : stripL s.data ≠ []) :
    ∃ c', hyphenJoin (String.mk (m.data ++ c)) s = String.mk (m.data ++ c') ∧
      c' ≠ [] ∧ ∃ ch, c'.getLast? = some ch ∧ isPySpace ch = false := by
  unfold hyphenJoin
  by_cases hlast : (String.mk (m.data ++ c)).data.getLast? = some '-'
  · rw [if_pos hlast]
    refine ⟨c.dropLast ++ stripL s.data, ?_, by simp [hs], ?_⟩
    · show String.mk (m.data ++ c).dropLast ++ pyStrip s = _
      unfold pyStrip
      rw [List.dropLast_append_of_ne_nil _ hc]
      show String.mk (m.data ++ c.dropLast) ++ String.mk (stripL s.data) = _
      rw [strAppend_mk]
      simp
    · obtain ⟨ch, hch1, hch2⟩ := stripL_good s.data hs
      refine ⟨ch, ?_, hch2⟩
      rw [List.getLast?_append_of_ne_nil _ hs]
      exact hch1
  · rw [if_neg hlast]
    refine ⟨(c ++ [' ']) ++ stripL s.data, ?_, by simp, ?_⟩
    · show String.mk (m.data ++ c) ++ " " ++ pyStrip s = _
      unfold pyStrip
      rw [strAppend_mk, strAppend_mk]
      have hsp : (" " : String).data = [' '] := rfl
      rw [hsp]
      simp
    · obtain ⟨ch, hch1, hch2⟩ := stripL_good s.data hs
      refine ⟨ch, ?_, hch2⟩
      rw [List.getLast?_append_of_ne_nil _ hs]
      exact hch1

/-- The list-item continuation loop preserves the marker prefix and the
nonempty, non-whitespace-terminated content tail. -/
theorem listContLoop_marker_shape (opts : ConversionOptions) (fc : TextBlock)
    (m : String) :
    ∀ (l : List TextBlock) (prev : TextBlock) (c : List Char) (bb : BBox),
      c ≠ [] → (∃ ch, c.getLast? = some ch ∧ isPySpace ch = false) →
      (∀ x ∈ l, stripL x.text.data ≠ []) →
      ∃ c', (listContLoop opts fc prev (String.mk (m.data ++ c)) bb l).1 =
          String.mk (m.data ++ c') ∧
        c' ≠ [] ∧ ∃ ch, c'.getLast? = some ch ∧ isPySpace ch = false := by
  intro l
  induction l with
  | nil =>
    intro prev c bb hc hgood _
    exact ⟨c, rfl, hc, hgood⟩
  | cons cand rest ih =>
    intro prev c bb hc hgood hall
    unfold listContLoop
    by_cases hcont : should_continue_list_item opts fc cand prev
    · rw [if_pos hcont]
      have hcand : stripL cand.text.data ≠ [] := hall cand (by simp)
      obtain ⟨c1, hj, hc1, hgood1⟩ := hyphenJoin_marker_step m c cand.text hc hcand
      rw [hj]
      obtain ⟨c', hres, hc', hgood'⟩ :=
        ih cand c1 (merge_bboxes bb cand.bbox) hc1 hgood1
          (fun x hx => hall x (by simp [hx]))
      exact ⟨c', hres, hc', hgood'⟩
    · rw [if_neg hcont]
      exact ⟨c, rfl, hc, hgood⟩

/-- A join step keeps the accumulated text at length at least two. -/
theorem hyphenJoin_len_mono (t s : String) (hs : stripL s.data ≠ [])
    (ht : 2 ≤ t.data.length) : 2 ≤ (hyphenJoin t s).data.length := by
  unfold hyphenJoin
  have hk : 1 ≤ (stripL s.data).length := List.length_pos.mpr hs
  by_cases hlast : t.data.getLast? = some '-'
  · rw [if_pos hlast]
    show 2 ≤ (String.mk t.data.dropLast ++ pyStrip s).data.length
    unfold pyStrip
    rw [strData_append, List.length_append]
    simp only [String.data]
    rw [List.length_dropLast]
    omega
  · rw [if_neg hlast]
    show 2 ≤ (t ++ " " ++ pyStrip s).data.length
    unfold pyStrip
    rw [strData_append, strData_append, List.length_append, List.length_append]
    have hsp : (" " : String).data = [' '] := rfl
    rw [hsp]
    simp only [List.length_cons, List.length_nil]
    omega

/-- A join step starting from text not ending in a hyphen always reaches
length at least two. -/
theorem hyphenJoin_len_start (t s : String) (hs : stripL s.data ≠ [])
    (ht : ¬ t.data.getLast? = some '-') : 2 ≤ (hyphenJoin t s).data.length := by
  unfold hyphenJoin
  rw [if_neg ht]
  have hk : 1 ≤ (stripL s.data).length := List.length_pos.mpr hs
  show 2 ≤ (t ++ " " ++ pyStrip s).data.length
  unfold pyStrip
  rw [strData_append, strData_append, List.length_append, List.length_append]
  have hsp : (" " : String).data = [' '] := rfl
  rw [hsp]
  simp only [List.length_cons, List.length_nil]
  omega

/-- The paragraph-merge loop never turns a non-bullet starting text into a
standalone bullet glyph. -/
theorem mergeParaAux_no_single_bullet (opts : ConversionOptions) (current : TextBlock) :
    ∀ (l : List TextBlock) (prev : TextBlock) (t : String) (bb : BBox),
      (∀ x ∈ l, stripL x.text.data ≠ []) →
      isBulletMarker t = false →
      isBulletMarker ((mergeParaAux opts current prev t bb l).1) = false := by
  intro l
  induction l with
  | nil =>
    intro prev t bb _ hbul
    exact hbul
  | cons nb rest ih =>
    intro prev t bb hall hbul
    unfold mergeParaAux
    by_cases hm : should_merge_lines opts current nb prev
    · rw [if_pos hm]
      have hnb : stripL nb.text.data ≠ [] := hall nb (by simp)
      have hlen : 2 ≤ (hyphenJoin t nb.text).data.length := by
        by_cases hlast : t.data.getLast? = some '-'
        · have ht2 : 2 ≤ t.data.length := by
            rcases hdt : t.data with _ | ⟨c0, _ | ⟨c1, tl⟩⟩
            · rw [hdt] at hlast
              simp at hlast
            · rw [hdt] at hlast
              simp only [List.getLast?_singleton, Option.some.injEq] at hlast
              exfalso
              have : isBulletMarker t = true := by
                unfold isBulletMarker
                rw [hdt, hlast]
                decide
              rw [this] at hbul
              exact absurd hbul (by simp)
            · simp [hdt]
          exact hyphenJoin_len_mono t nb.text hnb ht2
        · exact hyphenJoin_len_start t nb.text hnb hlast
      have hbul' : isBulletMarker (hyphenJoin t nb.text) = false :=
        isBulletMarker_eq_false_of_two_le _ hlen
      exact ih nb (hyphenJoin t nb.text) (merge_bboxes bb nb.bbox)
        (fun x hx => hall x (by simp [hx])) hbul'
    · rw [if_neg hm]
      exact hbul

/-- The counting loop of `_count_merged_blocks` agrees with the fusing loop
of `_merge_paragraph_lines`: same predicate, same previous block, same
first failure. -/
theorem countMergedAux_eq_mergeParaAux (opts : ConversionOptions) (current : TextBlock) :
    ∀ (l : List TextBlock) (prev : TextBlock) (t : String) (bb : BBox),
      countMergedAux opts current prev l = (mergeParaAux opts current prev t bb l).2.2 := by
  intro l
  induction l with
  | nil =>
    intro prev t bb
    rfl
  | cons nb rest ih =>
    intro prev t bb
    unfold countMergedAux mergeParaAux
    by_cases hm : should_merge_lines opts current nb prev
    · rw [if_pos hm, if_pos hm]
      simp only []
      rw [ih nb (hyphenJoin t nb.text) (merge_bboxes bb nb.bbox)]
      omega
    · rw [if_neg hm, if_neg hm]

/-- The counting loop consumes at most the remaining blocks. -/
theorem countMergedAux_le (opts : ConversionOptions) (current : TextBlock) :
    ∀ (l : List TextBlock) (prev : TextBlock),
      countMergedAux opts current prev l ≤ l.length := by
  intro l
  induction l with
  | nil =>
    intro prev
    simp [countMergedAux]
  | cons nb rest ih =>
    intro prev
    unfold countMergedAux
    by_cases hm : should_merge_lines opts current nb prev
    · rw [if_pos hm]
      have := ih nb
      simp only [List.length_cons]
      omega
    · rw [if_neg hm]
      simp

/-- The merging loop leaves nothing to do on an empty block list, whatever
the fuel. -/
theorem mergeLoop_nil (opts : ConversionOptions) (fuel : Nat) :
    mergeLoop opts fuel [] = [] := by
  cases fuel <;> rfl

/-- Claim C10: `_count_merged_blocks` returns exactly 1 plus the number of
subsequent blocks that `_merge_paragraph_lines` fuses into its result (both
walk the same merge predicate with the same effective previous block and
stop at the same first failure); the count is at least 1 and at most the
available blocks, and the ordinary-fragment path of the main merge loop
emits the merged paragraph block and advances the cursor past exactly the
counted blocks, so no input line is duplicated or silently dropped there. -/
theorem c10_count_matches_paragraph_fusion :
    (∀ (opts : ConversionOptions) (current : TextBlock) (rest : List TextBlock),
      count_merged_blocks opts current rest = 1 + mergeParaFused opts current rest) ∧
    (∀ (opts : ConversionOptions) (current : TextBlock) (rest : List TextBlock),
      1 ≤ count_merged_blocks opts current rest ∧
      count_merged_blocks opts current rest ≤ 1 + rest.length) ∧
    (∀ (opts : ConversionOptions) (fuel : Nat) (current : TextBlock)
      (rest : List TextBlock),
      isBulletMarker (pyStrip current.text) = false →
      numberMarker (pyStrip current.text) = none →
      mergeLoop opts (fuel + 1) (current :: rest) =
        merge_paragraph_lines opts current rest ::
          mergeLoop opts fuel (rest.drop (count_merged_blocks opts current rest - 1))) := by
  refine ⟨?_, ?_, ?_⟩
  · intro opts current rest
    unfold count_merged_blocks mergeParaFused
    rw [countMergedAux_eq_mergeParaAux opts current rest current (pyStrip current.text)
      current.bbox]
  · intro opts current rest
    unfold count_merged_blocks
    have := countMergedAux_le opts current rest current
    omega
  · intro opts fuel current rest hbul hnum
    simp [mergeLoop, hbul, hnum]

/-- Witness for C10's loop-consumption conjunct at a concrete two-line
paragraph. -/
theorem c10_count_matches_paragraph_fusion_witness :
    isBulletMarker (pyStrip (lineFragment "First line" 0 0).text) = false ∧
    numberMarker (pyStrip (lineFragment "First line" 0 0).text) = none ∧
    mergeLoop defaultOptions 2 [lineFragment "First line" 0 0, lineFragment "continues." 0 10] =
      merge_paragraph_lines defaultOptions (lineFragment "First line" 0 0)
          [lineFragment "continues." 0 10] ::
        mergeLoop defaultOptions 1
          ([lineFragment "continues." 0 10].drop
            (count_merged_blocks defaultOptions (lineFragment "First line" 0 0)
              [lineFragment "continues." 0 10] - 1)) :=
  ⟨by decide, by decide,
    c10_count_matches_paragraph_fusion.2.2 defaultOptions 1 _ _ (by decide) (by decide)⟩

/-- Claim C3: whenever the merger fuses a next fragment onto accumulated
text — paragraph continuation or list-item continuation — a trailing
hyphen is removed and the next fragment's trimmed text concatenated
directly, otherwise the two are joined by exactly one space; in particular
`"...hyph-"` + `"enated word."` merges to `"...hyphenated word."` and
`"First line"` + `"continues."` merges to `"First line continues."`. -/
theorem c3_hyphenation_aware_join :
    (∀ (opts : ConversionOptions) (b1 b2 : TextBlock),
      should_merge_lines opts b1 b2 b1 = true →
      (merge_paragraph_lines opts b1 [b2]).text =
        if (pyStrip b1.text).data.getLast? = some '-' then
          String.mk (pyStrip b1.text).data.dropLast ++ pyStrip b2.text
        else pyStrip b1.text ++ " " ++ pyStrip b2.text) ∧
    (∀ (opts : ConversionOptions) (fuel : Nat) (mkr c1 c2 : TextBlock),
      isBulletMarker (pyStrip mkr.text) = true →
      should_join_bullet mkr c1 = true →
      should_continue_list_item opts c1 c2 c1 = true →
      (mergeLoop opts (fuel + 1) [mkr, c1, c2]).map (fun b => b.text) =
        [if ("- " ++ pyStrip c1.text).data.getLast? = some '-' then
            String.mk ("- " ++ pyStrip c1.text).data.dropLast ++ pyStrip c2.text
          else ("- " ++ pyStrip c1.text) ++ " " ++ pyStrip c2.text]) ∧
    (merge_text_blocks defaultOptions
        [lineFragment "Example of hyph-" 0 0, lineFragment "enated word." 0 10]).map
      (fun b => b.text) = ["Example of hyphenated word."] ∧
    (merge_text_blocks defaultOptions
        [lineFragment "First line" 0 0, lineFragment "continues." 0 10]).map
      (fun b => b.text) = ["First line continues."] := by
  refine ⟨?_, ?_, by decide, by decide⟩
  · intro opts b1 b2 h
    simp [merge_paragraph_lines, mergeParaAux, h, hyphenJoin]
  · intro opts fuel mkr c1 c2 h1 h2 h3
    simp [mergeLoop, h1, h2, h3, listContLoop, hyphenJoin, mergeLoop_nil]

/-- Witness for C3's general paragraph-join rule at the hyphenation
example. -/
theorem c3_hyphenation_aware_join_witness :
    should_merge_lines defaultOptions (lineFragment "Example of hyph-" 0 0)
      (lineFragment "enated word." 0 10) (lineFragment "Example of hyph-" 0 0) = true ∧
    (merge_paragraph_lines defaultOptions (lineFragment "Example of hyph-" 0 0)
        [lineFragment "enated word." 0 10]).text =
      (if (pyStrip (lineFragment "Example of hyph-" 0 0).text).data.getLast? = some '-' then
        String.mk (pyStrip (lineFragment "Example of hyph-" 0 0).text).data.dropLast ++
          pyStrip (lineFragment "enated word." 0 10).text
      else pyStrip (lineFragment "Example of hyph-" 0 0).text ++ " " ++
        pyStrip (lineFragment "enated word." 0 10).text) :=
  ⟨by decide, c3_hyphenation_aware_join.1 defaultOptions _ _ (by decide)⟩

/-- No bullet glyph is a digit. -/
theorem digit_not_bullet_glyph (c : Char) (hdig : c.isDigit = true) :
    bulletGlyphs.contains c = false := by
  by_contra hcon
  rw [Bool.not_eq_false] at hcon
  have hmem : c ∈ bulletGlyphs := List.mem_of_elem_eq_true hcon
  fin_cases hmem <;> exact absurd hdig (by decide)

/-- A standalone number marker is never a standalone bullet glyph: its text
starts with a digit, and no bullet glyph is a digit. -/
theorem numberMarker_isSome_bullet_false (s : String)
    (h : (numberMarker s).isSome = true) : isBulletMarker s = false := by
  unfold isBulletMarker
  rcases hds : s.data with _ | ⟨c, _ | ⟨d, t⟩⟩
  · rfl
  · by_cases hdig : c.isDigit
    · have hglyph : bulletGlyphs.contains c = false := digit_not_bullet_glyph c hdig
      simpa using hglyph
    · exfalso
      unfold numberMarker at h
      rw [hds] at h
      simp [List.takeWhile_cons, hdig] at h
  · rfl

/-- No fuelled run of the merging loop, over blocks whose stripped text is
nonempty, emits a block whose text is a bare bullet glyph. -/
theorem mergeLoop_no_bare_bullet (opts : ConversionOptions) :
    ∀ (fuel : Nat) (l : List TextBlock),
      (∀ x ∈ l, stripL x.text.data ≠ []) →
      ∀ b ∈ mergeLoop opts fuel l, isBulletMarker b.text = false := by
  intro fuel
  induction fuel with
  | zero =>
    intro l _ b hb
    simp [mergeLoop] at hb
  | succ fuel ih =>
    intro l hall b hb
    cases l with
    | nil => simp [mergeLoop] at hb
    | cons current rest =>
      by_cases hbul : isBulletMarker (pyStrip current.text)
      · cases rest with
        | nil =>
          rw [show mergeLoop opts (fuel + 1) [current] = mergeLoop opts fuel [] by
            simp [mergeLoop, hbul], mergeLoop_nil] at hb
          simp at hb
        | cons next rest2 =>
          by_cases hjoin : should_join_bullet current next
          · simp only [mergeLoop, hbul, if_true, hjoin] at hb
            rcases List.mem_cons.mp hb with hb1 | hb2
            · subst hb1
              have hc0 : stripL next.text.data ≠ [] := hall next (by simp)
              obtain ⟨ch0, hch0, hsp0⟩ := stripL_good next.text.data hc0
              obtain ⟨c', hres, hc', _⟩ :=
                listContLoop_marker_shape opts next "- " rest2 next
                  (stripL next.text.data) (merge_bboxes current.bbox next.bbox)
                  hc0 ⟨ch0, hch0, hsp0⟩ (fun x hx => hall x (by simp [hx]))
              have hrw : ("- " ++ pyStrip next.text) =
                  String.mk (("- ").data ++ stripL next.text.data) :=
                strAppend_mk "- " (stripL next.text.data)
              rw [hrw] at *
              apply isBulletMarker_eq_false_of_two_le
              show 2 ≤ (listContLoop opts next next _ _ rest2).1.data.length
              rw [hres]
              have hdl : (("- ").data).length = 2 := by decide
              have hcl : 1 ≤ c'.length := List.length_pos.mpr hc'
              simp only [List.length_append, hdl]
              omega
            · exact ih _ (fun x hx => hall x (by
                simp only [List.mem_cons]
                exact Or.inr (Or.inr (List.drop_subset _ _ hx)))) b hb2
          · rw [show mergeLoop opts (fuel + 1) (current :: next :: rest2) =
                mergeLoop opts fuel (next :: rest2) by
              simp [mergeLoop, hbul, hjoin]] at hb
            exact ih _ (fun x hx => hall x (by simp [List.mem_cons.mp hx])) b hb
      · rcases hnm : numberMarker (pyStrip current.text) with _ | num
        · simp only [mergeLoop, hbul, if_false, Bool.false_eq_true, hnm] at hb
          rcases List.mem_cons.mp hb with hb1 | hb2
          · subst hb1
            show isBulletMarker (merge_paragraph_lines opts current rest).text = false
            unfold merge_paragraph_lines
            exact mergeParaAux_no_single_bullet opts current rest current
              (pyStrip current.text) current.bbox
              (fun x hx => hall x (by simp [hx]))
              (by simpa using hbul)
          · exact ih _ (fun x hx => hall x (by
              simp only [List.mem_cons]
              exact Or.inr (List.drop_subset _ _ hx))) b hb2
        · cases rest with
          | nil =>
            rw [show mergeLoop opts (fuel + 1) [current] = mergeLoop opts fuel [] by
              simp [mergeLoop, hbul, hnm], mergeLoop_nil] at hb
            simp at hb
          | cons next rest2 =>
            by_cases hjoin : should_join_number current next
            · simp only [mergeLoop, hbul, if_false, Bool.false_eq_true, hnm, hjoin,
                if_true] at hb
              rcases List.mem_cons.mp hb with hb1 | hb2
              · subst hb1
                have hc0 : stripL next.text.data ≠ [] := hall next (by simp)
                obtain ⟨ch0, hch0, hsp0⟩ := stripL_good next.text.data hc0
                obtain ⟨c', hres, hc', _⟩ :=
                  listContLoop_marker_shape opts next (num ++ ". ") rest2 next
                    (stripL next.text.data) (merge_bboxes current.bbox next.bbox)
                    hc0 ⟨ch0, hch0, hsp0⟩ (fun x hx => hall x (by simp [hx]))
                have hrw : (num ++ ". " ++ pyStrip next.text) =
                    String.mk ((num ++ ". ").data ++ stripL next.text.data) :=
                  strAppend_mk (num ++ ". ") (stripL next.text.data)
                rw [hrw] at *
                apply isBulletMarker_eq_false_of_two_le
                show 2 ≤ (listContLoop opts next next _ _ rest2).1.data.length
                rw [hres]
                have hdl : ((num ++ ". ").data).length = num.data.length + 2 := by
                  rw [strData_append, List.length_append]
                  rfl
                have hcl : 1 ≤ c'.length := List.length_pos.mpr hc'
                simp only [List.length_append, hdl]
                omega
              · exact ih _ (fun x hx => hall x (by
                  simp only [List.mem_cons]
                  exact Or.inr (Or.inr (List.drop_subset _ _ hx)))) b hb2
            · rw [show mergeLoop opts (fuel + 1) (current :: next :: rest2) =
                  mergeLoop opts fuel (next :: rest2) by
                simp [mergeLoop, hbul, hnm, hjoin]] at hb
              exact ih _ (fun x hx => hall x (by simp [List.mem_cons.mp hx])) b hb

/-- Claim C1, amended: no output block of the merger has text that is
exactly a bare bullet glyph; a standalone bullet or number fragment whose
following fragment fails the join test (or that has no following fragment)
is discarded and contributes no output block; and every marker fused by the
bullet/number paths is followed by content text in the same block. (As
stated the claim is false: a paragraph-path hyphen join can output a bare
numbered marker — see the counterexample.) -/
theorem c1_marker_handling :
    (∀ (opts : ConversionOptions) (blocks : List TextBlock),
      (∀ x ∈ blocks, stripL x.text.data ≠ []) →
      ∀ b ∈ merge_text_blocks opts blocks, isBulletMarker b.text = false) ∧
    (∀ (opts : ConversionOptions) (fuel : Nat) (current : TextBlock),
      isBulletMarker (pyStrip current.text) = true ∨
        (numberMarker (pyStrip current.text)).isSome = true →
      mergeLoop opts (fuel + 1) [current] = []) ∧
    (∀ (opts : ConversionOptions) (fuel : Nat) (current next : TextBlock)
      (rest2 : List TextBlock),
      isBulletMarker (pyStrip current.text) = true ∨
        (numberMarker (pyStrip current.text)).isSome = true →
      should_join_bullet current next = false →
      mergeLoop opts (fuel + 1) (current :: next :: rest2) =
        mergeLoop opts fuel (next :: rest2)) ∧
    (∀ (opts : ConversionOptions) (fuel : Nat) (current next : TextBlock)
      (rest2 : List TextBlock),
      isBulletMarker (pyStrip current.text) = true →
      should_join_bullet current next = true →
      stripL next.text.data ≠ [] →
      (∀ x ∈ rest2, stripL x.text.data ≠ []) →
      ∃ c, (mergeLoop opts (fuel + 1) (current :: next :: rest2)).head?.map
          (fun b => b.text) = some ("- " ++ c) ∧ pyStrip c ≠ "") ∧
    (∀ (opts : ConversionOptions) (fuel : Nat) (current next : TextBlock)
      (rest2 : List TextBlock) (num : String),
      numberMarker (pyStrip current.text) = some num →
      should_join_number current next = true →
      stripL next.text.data ≠ [] →
      (∀ x ∈ rest2, stripL x.text.data ≠ []) →
      ∃ c, (mergeLoop opts (fuel + 1) (current :: next :: rest2)).head?.map
          (fun b => b.text) = some (num ++ ". " ++ c) ∧ pyStrip c ≠ "") := by
  refine ⟨?_, ?_, ?_, ?_, ?_⟩
  · intro opts blocks hall b hb
    by_cases hbk : blocks = []
    · subst hbk
      simp [merge_text_blocks] at hb
    · unfold merge_text_blocks at hb
      rw [if_neg hbk] at hb
      have hperm := List.perm_insertionSort blockLE blocks
      exact mergeLoop_no_bare_bullet opts _ _
        (fun x hx => hall x (hperm.mem_iff.mp hx)) b hb
  · intro opts fuel current hmark
    rcases hmark with hbul | hnum
    · simp [mergeLoop, hbul, mergeLoop_nil]
    · have hbf := numberMarker_isSome_bullet_false _ hnum
      obtain ⟨num, hnm⟩ := Option.isSome_iff_exists.mp hnum
      simp [mergeLoop, hbf, hnm, mergeLoop_nil]
  · intro opts fuel current next rest2 hmark hjoin
    rcases hmark with hbul | hnum
    · simp [mergeLoop, hbul, hjoin]
    · have hbf := numberMarker_isSome_bullet_false _ hnum
      obtain ⟨num, hnm⟩ := Option.isSome_iff_exists.mp hnum
      simp [mergeLoop, hbf, hnm, should_join_number, hjoin]
  · intro opts fuel current next rest2 hbul hjoin hc0 hall2
    obtain ⟨ch0, hch0, hsp0⟩ := stripL_good next.text.data hc0
    obtain ⟨c', hres, hc', hch'⟩ :=
      listContLoop_marker_shape opts next "- " rest2 next (stripL next.text.data)
        (merge_bboxes current.bbox next.bbox) hc0 ⟨ch0, hch0, hsp0⟩ hall2
    refine ⟨String.mk c', ?_, ?_⟩
    · have hrw : ("- " ++ pyStrip next.text) =
          String.mk (("- ").data ++ stripL next.text.data) :=
        strAppend_mk "- " (stripL next.text.data)
      simp only [mergeLoop, hbul, if_true, hjoin, List.head?_cons, Option.map_some']
      rw [hrw, hres, ← strAppend_mk]
    · obtain ⟨ch, hch1, hch2⟩ := hch'
      have hne := stripL_ne_nil_of_last c' ch hch1 hch2
      intro hcontra
      exact hne (congrArg String.data hcontra)
  · intro opts fuel current next rest2 num hnm hjoin hc0 hall2
    have hbf : isBulletMarker (pyStrip current.text) = false :=
      numberMarker_isSome_bullet_false _ (by simp [hnm])
    obtain ⟨ch0, hch0, hsp0⟩ := stripL_good next.text.data hc0
    obtain ⟨c', hres, hc', hch'⟩ :=
      listContLoop_marker_shape opts next (num ++ ". ") rest2 next
        (stripL next.text.data) (merge_bboxes current.bbox next.bbox)
        hc0 ⟨ch0, hch0, hsp0⟩ hall2
    refine ⟨String.mk c', ?_, ?_⟩
    · have hrw : (num ++ ". " ++ pyStrip next.text) =
          String.mk ((num ++ ". ").data ++ stripL next.text.data) :=
        strAppend_mk (num ++ ". ") (stripL next.text.data)
      simp only [mergeLoop, hbf, Bool.false_eq_true, if_false, hnm, hjoin, if_true,
        List.head?_cons, Option.map_some']
      rw [hrw, hres, ← strAppend_mk]
    · obtain ⟨ch, hch1, hch2⟩ := hch'
      have hne := stripL_ne_nil_of_last c' ch hch1 hch2
      intro hcontra
      exact hne (congrArg String.data hcontra)

/-- Counterexample to claim C1 as stated: merging the ordinary fragments
`"12-"` and `"."` (a hyphen-join in the paragraph path) produces an output
block whose text is exactly the bare numbered marker `"12."`, even though
both inputs have nonempty stripped text. -/
theorem c1_bare_number_marker_counterexample :
    (merge_text_blocks defaultOptions
        [lineFragment "12-" 0 0, lineFragment "." 0 10]).map (fun b => b.text) =
      ["12."] ∧
    numberMarker "12." = some "12" ∧
    stripL ("12-").data ≠ [] ∧ stripL (".").data ≠ [] := by
  refine ⟨by decide, by decide, by decide, by decide⟩

/-- Witness for C1 (amended): a lone bullet fragment is discarded and the
conversion of it emits no bare-bullet block. -/
theorem c1_marker_handling_witness :
    (∀ x ∈ [lineFragment "•" 0 0], stripL x.text.data ≠ []) ∧
    (∀ b ∈ merge_text_blocks defaultOptions [lineFragment "•" 0 0],
      isBulletMarker b.text = false) :=
  ⟨by decide, c1_marker_handling.1 defaultOptions [lineFragment "•" 0 0] (by decide)⟩

/-- A substitution scan over an input with no match anywhere leaves the
input unchanged, whatever the fuel. -/
theorem scanSub_eq_self (m : List Char → Option Nat) (repl : List Char) :
    ∀ (fuel : Nat) (l : List Char),
      (∀ i < l.length, m (l.drop i) = none) → scanSub m repl fuel l = l := by
  intro fuel
  induction fuel with
  | zero =>
    intro l _
    rfl
  | succ fuel ih =>
    intro l h
    cases l with
    | nil => rfl
    | cons c rest =>
      have h0 : m (c :: rest) = none := by simpa using h 0 (by simp)
      simp only [scanSub, h0]
      rw [ih rest (fun i hi => by simpa using h (i + 1) (by simpa using hi))]

/-- Claim C9, amended: the document-level punctuation pass collapses a
comma immediately followed by a period at the end of a line to a single
period, and a run of exactly three commas followed by a period to a single
period, absorbing the surrounding whitespace; text without a match of
either pattern is left unchanged. (As stated the claim is false: a
mid-line `",."` and general comma runs survive — see the
counterexample.) -/
theorem c9_punctuation_cleanup_amended :
    (∀ s : String,
      (∀ i < s.data.length, matchCommaPeriodEol (s.data.drop i) = none) →
      (∀ i < s.data.length, matchTripleCommaPeriod (s.data.drop i) = none) →
      punctuationCleanup s = s) ∧
    punctuationCleanup "word , ." = "word." ∧
    punctuationCleanup "a , , , . b" = "a. b" ∧
    punctuationCleanup "x, .\ny" = "x.\ny" ∧
    punctuationCleanup "a,. b" = "a,. b" := by
  refine ⟨?_, by decide, by decide, by decide, by decide⟩
  intro s h1 h2
  unfold punctuationCleanup
  have e1 : sub_comma_period_eol s = s := by
    unfold sub_comma_period_eol
    rw [scanSub_eq_self matchCommaPeriodEol ['.'] s.data.length s.data h1]
  rw [e1]
  unfold sub_triple_comma_period
  rw [scanSub_eq_self matchTripleCommaPeriod ['.'] s.data.length s.data h2]

/-- Witness for C9 (amended) on comma-free text. -/
theorem c9_punctuation_cleanup_amended_witness :
    (∀ i < ("hello." : String).data.length,
      matchCommaPeriodEol (("hello." : String).data.drop i) = none) ∧
    (∀ i < ("hello." : String).data.length,
      matchTripleCommaPeriod (("hello." : String).data.drop i) = none) ∧
    punctuationCleanup "hello." = "hello." :=
  ⟨by decide, by decide,
    c9_punctuation_cleanup_amended.1 "hello." (by decide) (by decide)⟩

/-- Counterexample to claim C9 as stated: a comma immediately followed by a
period in the middle of a line is not collapsed, and a two-comma run before
a period at the end of a line leaves `",."` behind instead of a single
period. -/
theorem c9_orphan_punctuation_counterexample :
    punctuationCleanup "a,. b" = "a,. b" ∧ ("a,. b" : String) ≠ "a. b" ∧
    punctuationCleanup ",,." = ",." ∧ (",." : String) ≠ "." := by
  refine ⟨by decide, by decide, by decide, by decide⟩

/-- Claim C4, amended: while a numbering context `N > 0` is active, a line
fully wrapped in `**...**` looks ahead up to 14 lines for the next numbered
line; if that first future number exceeds `N+1` the bold line is rewritten
as `N+1. **content**` and the context continues from `N+1`, otherwise (no
gap, or no numbered line inside the window) it is left unmodified; the
spec's repair example repairs and a fully sequential list is returned
unmodified. (As stated — a 15-line window — the claim is false: see the
counterexample.) -/
theorem c4_orphan_number_repair_amended :
    (∀ (line : String) (rest : List String) (lastNum fn : Nat),
      numberedItemPrefix (pyStrip line) = none →
      pyStartsWith (pyStrip line) "**" = true →
      pyEndsWith (pyStrip line) "**" = true →
      0 < lastNum →
      firstFutureNumber (rest.take 14) = some fn →
      lastNum + 1 < fn →
      fixOrphanLoop (line :: rest) lastNum =
        (toString (lastNum + 1) ++ ". **" ++
          String.mk (((pyStrip line).data.drop 2).dropLast.dropLast) ++ "**") ::
          fixOrphanLoop rest (lastNum + 1)) ∧
    (∀ (line : String) (rest : List String) (lastNum : Nat),
      numberedItemPrefix (pyStrip line) = none →
      pyStartsWith (pyStrip line) "**" = true →
      pyEndsWith (pyStrip line) "**" = true →
      0 < lastNum →
      (firstFutureNumber (rest.take 14) = none ∨
        ∃ fn, firstFutureNumber (rest.take 14) = some fn ∧ fn ≤ lastNum + 1) →
      fixOrphanLoop (line :: rest) lastNum = line :: fixOrphanLoop rest lastNum) ∧
    fix_orphaned_numbered_items "1. **A**\n\n**B (no number)**\n\n3. **C**" =
      "1. **A**\n\n2. **B (no number)**\n\n3. **C**" ∧
    fix_orphaned_numbered_items "1. a\n2. b\n3. c" = "1. a\n2. b\n3. c" := by
  refine ⟨?_, ?_, by decide, by decide⟩
  · intro line rest lastNum fn h1 h2 h3 h4 h5 h6
    simp [fixOrphanLoop, h1, h2, h3, h4, h5, h6]
  · intro line rest lastNum h1 h2 h3 h4 h5
    rcases h5 with h5 | ⟨fn, h5, h6⟩
    · simp [fixOrphanLoop, h1, h2, h3, h4, h5]
    · have h7 : ¬ lastNum + 1 < fn := by omega
      simp [fixOrphanLoop, h1, h2, h3, h4, h5, h7]

/-- Witness for C4 (amended): a bold line with context `N = 1` and the
numbered line `3. c` two lines ahead is renumbered to `2.`. -/
theorem c4_orphan_number_repair_amended_witness :
    numberedItemPrefix (pyStrip "**B**") = none ∧
    0 < 1 ∧ firstFutureNumber ((["", "3. c"] : List String).take 14) = some 3 ∧
    1 + 1 < 3 ∧
    fixOrphanLoop ["**B**", "", "3. c"] 1 =
      (toString (1 + 1) ++ ". **" ++
        String.mk (((pyStrip "**B**").data.drop 2).dropLast.dropLast) ++ "**") ::
        fixOrphanLoop ["", "3. c"] (1 + 1) :=
  ⟨by decide, by decide, by decide, by decide,
    c4_orphan_number_repair_amended.1 "**B**" ["", "3. c"] 1 3 (by decide) (by decide)
      (by decide) (by decide) (by decide) (by decide)⟩

/-- Counterexample to claim C4 as stated: the first numbered line after the
bold line sits 15 lines ahead (the last line of a 15-line look-ahead
window) with number 3 > 1+1, yet the document is returned unmodified,
because the code's window is `range(i+1, min(i+15, len))` — 14 lines. -/
theorem c4_lookahead_window_counterexample :
    firstFutureNumber ((List.replicate 14 "x" ++ ["3. c"]).take 15) = some 3 ∧
    1 + 1 < 3 ∧
    fix_orphaned_numbered_items
        (String.intercalate "\n"
          (["1. a", "**B**"] ++ List.replicate 14 "x" ++ ["3. c"])) =
      String.intercalate "\n"
        (["1. a", "**B**"] ++ List.replicate 14 "x" ++ ["3. c"]) := by
  refine ⟨by decide, by decide, by decide⟩

/-- Claim C5: rendering a table produces the pipe-delimited grid — header
row, separator row of `---` per column, data rows — with every cell
whitespace-normalized and pipes escaped, short rows right-padded with
empty cells to the column count, and the empty table rendering as the
empty string. -/
theorem c5_table_rendering :
    (∀ (bb : BBox) (pn rc cc : Nat), table_to_markdown ⟨[], bb, pn, rc, cc⟩ = "") ∧
    (∀ (t : TableInfo) (header : List String) (rows : List (List String)),
      t.data = header :: rows →
      table_to_markdown t =
        String.intercalate "\n"
          (render_table_row header.length header ::
            ("| " ++ String.intercalate " | " (List.replicate header.length "---") ++
              " |") ::
            rows.map (render_table_row header.length))) ∧
    (∀ (ncols : Nat) (row : List String),
      row.length ≤ ncols →
      ∃ cells, render_table_row ncols row =
          "| " ++ String.intercalate " | " cells ++ " |" ∧
        cells.length = ncols ∧
        cells = (row ++ List.replicate (ncols - row.length) "").map escape_table_cell) ∧
    escape_table_cell "Value | with pipe" = "Value \\| with pipe" ∧
    escape_table_cell "Line1\nLine2" = "Line1 Line2" ∧
    table_to_markdown
        ⟨[["Name", "Age"], ["Alice", "30"], ["Bob", "25"]], ⟨0, 0, 100, 100⟩, 0, 3, 2⟩ =
      "| Name | Age |\n| --- | --- |\n| Alice | 30 |\n| Bob | 25 |" ∧
    table_to_markdown ⟨[["A", "B", "C"], ["Only", "Two"]], ⟨0, 0, 100, 100⟩, 0, 0, 0⟩ =
      "| A | B | C |\n| --- | --- | --- |\n| Only | Two |  |" := by
  refine ⟨?_, ?_, ?_, by decide, by decide, by decide, by decide⟩
  · intro bb pn rc cc
    rfl
  · intro t header rows ht
    obtain ⟨d, bb, pn, rc, cc⟩ := t
    simp only at ht
    subst ht
    rfl
  · intro ncols row h
    refine ⟨(row ++ List.replicate (ncols - row.length) "").map escape_table_cell,
      rfl, ?_, rfl⟩
    simp only [List.length_map, List.length_append, List.length_replicate]
    omega

/-- Witness for C5's padding conjunct: a two-cell row under a three-column
header. -/
theorem c5_table_rendering_witness :
    (["Only", "Two"] : List String).length ≤ 3 ∧
    ∃ cells, render_table_row 3 ["Only", "Two"] =
        "| " ++ String.intercalate " | " cells ++ " |" ∧
      cells.length = 3 ∧
      cells = ((["Only", "Two"] : List String) ++
        List.replicate (3 - (["Only", "Two"] : List String).length) "").map
          escape_table_cell :=
  ⟨by decide, c5_table_rendering.2.2.1 3 ["Only", "Two"] (by decide)⟩
